import Mathlib

/-!
Shallow embedding of the Finemate dashboard backend (`server.js`).

The server exposes REST endpoints over a SQLite store of accounting
transactions, inventory items, categories and category sales.  Each
endpoint is a direct mapping from a request to one or two SQL statements;
we embed the stores as lists of structures and each handler as a pure
function on those lists (plus the request parameters).  SQLite TEXT
comparison (memcmp on UTF-8 bytes) is embedded as code-point-wise
lexicographic comparison on `List Char`, which agrees with byte order on
valid UTF-8.  SQL `SUM` over `REAL` columns is embedded over `ℚ`.
-/

namespace Finemate

/-! ## Character and string utilities -/

/-- Whitespace characters recognised by JavaScript `String.prototype.trim`
(the ASCII ones, which are the ones that occur in query parameters). -/
def wsCh (c : Char) : Bool :=
  c == ' ' || c == '\t' || c == '\n' || c == '\r' || c == '\x0b' || c == '\x0c'

/-- Trim leading and trailing whitespace from a character list. -/
def trimList (l : List Char) : List Char :=
  ((l.dropWhile wsCh).reverse.dropWhile wsCh).reverse

/-- Embedding of JavaScript `s.trim()`. -/
def jsTrim (s : String) : String := ⟨trimList s.data⟩

/-- Strict byte-wise (code-point-wise) lexicographic order on character
lists: the comparison SQLite's `memcmp` performs on TEXT values. -/
def bytesLt : List Char → List Char → Bool
  | [], [] => false
  | [], _ :: _ => true
  | _ :: _, [] => false
  | a :: as, b :: bs =>
    if a.toNat < b.toNat then true
    else if b.toNat < a.toNat then false
    else bytesLt as bs

/-- Non-strict byte-wise lexicographic order on character lists. -/
def bytesLe : List Char → List Char → Bool
  | [], _ => true
  | _ :: _, [] => false
  | a :: as, b :: bs =>
    if a.toNat < b.toNat then true
    else if b.toNat < a.toNat then false
    else bytesLe as bs

/-- SQLite TEXT comparison `a <= b`. -/
def sqlLe (a b : String) : Bool := bytesLe a.data b.data

/-- SQLite TEXT comparison `a < b`. -/
def sqlLt (a b : String) : Bool := bytesLt a.data b.data

/-- SQLite `substr(s, 1, 7)`: the first seven characters. -/
def substr7 (s : String) : String := ⟨s.data.take 7⟩

/-- Case folding used by SQLite's default `LIKE`: upper-case ASCII letters
are identified with their lower-case forms; all other characters compare
exactly. -/
def likeFold (c : Char) : Char :=
  if 'A' ≤ c && c ≤ 'Z' then Char.ofNat (c.toNat + 32) else c

/-- SQLite `LIKE` pattern matching (default, case-insensitive for ASCII):
`%` matches any sequence of characters (tried against every suffix of the
text), `_` matches exactly one character, anything else matches itself up
to ASCII case. -/
def likeMatch : List Char → List Char → Bool
  | [], t => t.isEmpty
  | '%' :: ps, t => t.tails.any (fun s => likeMatch ps s)
  | '_' :: _, [] => false
  | '_' :: ps, _ :: ts => likeMatch ps ts
  | _ :: _, [] => false
  | p :: ps, c :: ts => (likeFold p == likeFold c) && likeMatch ps ts

/-- Matching of a field against the pattern built by the transaction-list
handler: a percent sign, then `q` verbatim, then a percent sign. -/
def likeContains (q field : String) : Bool :=
  likeMatch ('%' :: q.data ++ ['%']) field.data

/-- Does `q` occur as a contiguous sublist of the second argument? -/
def hasInfix (q : List Char) : List Char → Bool
  | [] => q.isPrefixOf []
  | c :: t => q.isPrefixOf (c :: t) || hasInfix q t

/-- Case-sensitive substring containment: the relation the specification's
words "contains q as a case-sensitive substring" describe. -/
def containsCS (hay q : String) : Bool := hasInfix q.data hay.data

/-- Embedding of `r.replace(/"/g, '""')`: double every double-quote
character. -/
def escQuotes (s : String) : String :=
  ⟨s.data.flatMap (fun c => if c == '"' then ['"', '"'] else [c])⟩

/-! ## Data model

The four tables created by `initDb`, one structure per row. -/

/-- A row of the `transactions` table. -/
structure Txn where
  id : Nat
  date : String
  reference : String
  type : String
  account : String
  debit : ℚ
  credit : ℚ
  deriving DecidableEq, Repr

/-- A row of the `inventory` table. -/
structure InventoryItem where
  id : Nat
  sku : String
  name : String
  stock : Int
  reorder_level : Int
  status : String
  deriving DecidableEq, Repr

/-- A row of the `categories` table. -/
structure Category where
  id : Nat
  name : String
  deriving DecidableEq, Repr

/-- A row of the `category_sales` table. -/
structure CategorySale where
  id : Nat
  category_id : Nat
  month : String
  amount : ℚ
  deriving DecidableEq, Repr

/-- The `transactions` table together with its `AUTOINCREMENT` sequence
counter (SQLite assigns `seq + 1` to the next inserted row and never
reuses ids). -/
structure TxStore where
  rows : List Txn
  seq : Nat
  deriving DecidableEq, Repr

/-! ## Stats endpoint (`GET /api/stats`) -/

/-- JavaScript `x || 0` on a number: `0` stays `0`, anything else is kept. -/
def orZero (x : ℚ) : ℚ := if x = 0 then 0 else x

/-- Embedding of `IFNULL(SUM(debit), 0)` over the transactions of the
given type: `SUM` over no rows is `NULL`, turned into `0` by `IFNULL`, so
this is the plain sum of `debit` over the matching rows. -/
def sumDebit (txns : List Txn) (ty : String) : ℚ :=
  ((txns.filter (fun t => t.type == ty)).map Txn.debit).sum

/-- Embedding of `IFNULL(SUM(stock), 0)` over the whole inventory table. -/
def sumStock (inv : List InventoryItem) : Int :=
  (inv.map InventoryItem.stock).sum

/-- The payload of `GET /api/stats`. -/
structure Stats where
  revenue : ℚ
  expenses : ℚ
  profit : ℚ
  stock : Int
  deriving DecidableEq, Repr

/-- The `GET /api/stats` handler: revenue and expenses are sums of `debit`
over `type = 'invoice'` resp. `type = 'expense'`, stock is the sum of
`stock` over the inventory, and each field goes through `|| 0`. -/
def apiStats (txns : List Txn) (inv : List InventoryItem) : Stats :=
  { revenue := orZero (sumDebit txns "invoice")
    expenses := orZero (sumDebit txns "expense")
    profit := orZero (sumDebit txns "invoice") - orZero (sumDebit txns "expense")
    stock := if sumStock inv = 0 then 0 else sumStock inv }

/-! ## Revenue time series (`GET /api/revenue-series`)

The handler builds `monthsCount` month keys ending at the current month by
constructing `new Date(year, month - i, 1)` (JavaScript normalises the
month into `[0, 12)`, carrying into the year) and taking the `YYYY-MM`
prefix of its ISO rendering; we embed a calendar month as its absolute
month index `12 * year + month` and render the key with explicit decimal
digits, which agrees with `toISOString().slice(0,7)` for years in
`[100, 9999]` (the range our theorems assume). -/

/-- The current date, reduced to what the handler reads from `new Date()`:
`getFullYear()` and `getMonth()` (the latter 0-based). -/
structure Today where
  year : Int
  month : Int
  deriving DecidableEq, Repr

/-- Absolute month index of the current date: `12 * year + month`. -/
def monthIdx (t : Today) : Int := 12 * t.year + t.month

/-- Decimal digit characters. -/
def digitCh : Nat → Char
  | 0 => '0' | 1 => '1' | 2 => '2' | 3 => '3' | 4 => '4'
  | 5 => '5' | 6 => '6' | 7 => '7' | 8 => '8' | 9 => '9'
  | _ => '0'

/-- Two-digit zero-padded decimal rendering (for month numbers). -/
def digits2 (n : Nat) : List Char := [digitCh (n / 10 % 10), digitCh (n % 10)]

/-- Four-digit zero-padded decimal rendering (for years). -/
def digits4 (n : Nat) : List Char :=
  [digitCh (n / 1000 % 10), digitCh (n / 100 % 10), digitCh (n / 10 % 10), digitCh (n % 10)]

/-- The `YYYY-MM` key of the month with absolute index `idx`: the
normalised year is `idx` divided by 12 rounding down, the normalised month
is `idx mod 12` (0-based, so the printed month number adds 1). -/
def ymKey (idx : Int) : String :=
  ⟨digits4 (idx / 12).toNat ++ '-' :: digits2 ((idx % 12).toNat + 1)⟩

/-- The bucket list built by the handler's `for` loop: `i` runs from
`monthsCount - 1` down to `0`, pushing the key of the month `i` months
before the current one; for `monthsCount <= 0` the loop body never runs. -/
def monthsList (t : Today) (mc : Int) : List String :=
  (List.range mc.toNat).map (fun j : Nat => ymKey (monthIdx t - (mc - 1) + (j : Int)))

/-- The query's lower bound `months[0] + '-01'`: when `months` is empty,
`months[0]` is `undefined` and JavaScript string concatenation yields
`"undefined-01"`. -/
def lowerBound (months : List String) : String :=
  ⟨(months.headD "undefined").data ++ ['-', '0', '1']⟩

/-- Embedding of the grouped query: the sum of `debit` over transactions
of the given type with `date >= lower` whose `substr(date,1,7)` is `m`. -/
def monthSum (txns : List Txn) (ty lower m : String) : ℚ :=
  ((txns.filter
      (fun t => t.type == ty && sqlLe lower t.date && substr7 t.date == m)).map
    Txn.debit).sum

/-- Does month `m` occur in the grouped query result (i.e. does some row
match the `WHERE` clause and fall in group `m`)?  When it does not,
`revMap[m]` is `undefined`. -/
def monthPresent (txns : List Txn) (ty lower m : String) : Bool :=
  txns.any (fun t => t.type == ty && sqlLe lower t.date && substr7 t.date == m)

/-- The per-month sum the specification describes: the sum of `debit`
over transactions of the given type whose date's `YYYY-MM` prefix is `m`
(no lower-bound date filter). -/
def prefixMonthSum (txns : List Txn) (ty m : String) : ℚ :=
  ((txns.filter (fun t => t.type == ty && substr7 t.date == m)).map
    Txn.debit).sum

/-- JavaScript `Math.round`: round to the nearest integer, halves toward
positive infinity. -/
def jsRound (x : ℚ) : Int := ⌊x + 1 / 2⌋

/-- One entry of the series: `revMap[m] ? Math.round(revMap[m]) : 0` — the
lookup must be present and non-zero (truthy) for rounding to be applied,
otherwise the entry is the literal 0. -/
def seriesEntry (txns : List Txn) (ty lower m : String) : Int :=
  if monthPresent txns ty lower m = true ∧ monthSum txns ty lower m ≠ 0 then
    jsRound (monthSum txns ty lower m)
  else 0

/-- Short English month names, as produced by
`toLocaleString('en', ...)` with the short month option. -/
def monthShortNames : List String :=
  ["Jan", "Feb", "Mar", "Apr", "May", "Jun",
   "Jul", "Aug", "Sep", "Oct", "Nov", "Dec"]

/-- Numeric value of a decimal digit character, if it is one. -/
def digVal (c : Char) : Option Nat :=
  if 48 ≤ c.toNat && c.toNat ≤ 57 then some (c.toNat - 48) else none

/-- Numeric value of a two-digit decimal string, if both are digits. -/
def twoDigVal (a b : Char) : Option Nat :=
  match digVal a, digVal b with
  | some x, some y => some (10 * x + y)
  | _, _ => none

/-- Is this two-character group a month number `01`–`12`? -/
def monthOk (a b : Char) : Bool :=
  match twoDigVal a b with
  | some v => 1 ≤ v && v ≤ 12
  | none => false

/-- Is this two-character group a day number `01`–`31`? -/
def dayOk (a b : Char) : Bool :=
  match twoDigVal a b with
  | some v => 1 ≤ v && v ≤ 31
  | none => false

/-- Well-formedness of a stored date as the data model intends it: a
ten-character `YYYY-MM-DD` calendar date.  The store itself does not
enforce this (the column is free TEXT); theorems that relate the
month-bucketed query to per-month prefix sums assume it. -/
def isCalendarDate (s : String) : Bool :=
  match s.data with
  | [y1, y2, y3, y4, h1, m1, m2, h2, d1, d2] =>
    (digVal y1).isSome && (digVal y2).isSome && (digVal y3).isSome &&
    (digVal y4).isSome && h1 == '-' && h2 == '-' && monthOk m1 m2 && dayOk d1 d2
  | _ => false

/-- Accumulator loop of `parseInt`: consume leading digits. -/
def parseNatAux : List Char → Nat → Nat
  | [], acc => acc
  | c :: t, acc =>
    match digVal c with
    | some d => parseNatAux t (acc * 10 + d)
    | none => acc

/-- Embedding of `parseInt(s, 10)` on the strings that occur here: the
value of the leading digit run, or `none` (JavaScript `NaN`) when the
string does not start with a digit. -/
def parseNatPrefix : List Char → Option Nat
  | [] => none
  | c :: t =>
    match digVal c with
    | some d => some (parseNatAux t d)
    | none => none

/-- The label of a bucket month: the handler splits the key on `-`, parses
the month number and renders `new Date(y, mm - 1)` as a short month name
(`Date` normalises `mm - 1` into `[0, 12)`); a key whose month part does
not parse yields an invalid date. -/
def monthLabel (m : String) : String :=
  match (m.splitOn "-").drop 1 with
  | mm :: _ =>
    match parseNatPrefix mm.data with
    | some n => monthShortNames.getD (((n : Int) - 1) % 12).toNat "Invalid Date"
    | none => "Invalid Date"
  | [] => "Invalid Date"

/-- The payload of `GET /api/revenue-series`. -/
structure SeriesOut where
  labels : List String
  months : List String
  revenue : List Int
  expenses : List Int
  deriving DecidableEq, Repr

/-- The `GET /api/revenue-series` handler. -/
def apiRevenueSeries (txns : List Txn) (t : Today) (mc : Int) : SeriesOut :=
  let months := monthsList t mc
  let lower := lowerBound months
  { labels := months.map monthLabel
    months := months
    revenue := months.map (seriesEntry txns "invoice" lower)
    expenses := months.map (seriesEntry txns "expense" lower) }

/-! ## Category breakdown (`GET /api/category-sales`) -/

/-- Embedding of one group of the `LEFT JOIN ... GROUP BY c.id` query: the
sum of `category_sales.amount` over rows of the given category and month
(`IFNULL` turns the all-`NULL` group of a saleless category into 0, i.e.
the empty sum). -/
def catTotal (sales : List CategorySale) (cid : Nat) (month : String) : ℚ :=
  ((sales.filter (fun s => s.category_id == cid && s.month == month)).map
    CategorySale.amount).sum

/-- The `ORDER BY total DESC` relation on result pairs. -/
def byTotalDesc (a b : String × ℚ) : Prop := b.2 ≤ a.2

instance : DecidableRel byTotalDesc :=
  fun a b => inferInstanceAs (Decidable (b.2 ≤ a.2))

/-- The `GET /api/category-sales` handler: one `(name, total)` pair per
category (the driving set of the left join), sorted by total descending. -/
def apiCategorySales (cats : List Category) (sales : List CategorySale)
    (month : String) : List (String × ℚ) :=
  List.insertionSort byTotalDesc
    (cats.map (fun c => (c.name, catTotal sales c.id month)))

/-! ## Transaction list (`GET /api/transactions`) -/

/-- The `ORDER BY date DESC, id DESC` relation: `a` comes no later than
`b` when `a`'s date is strictly greater, or the dates are equal and `a`'s
id is at least `b`'s. -/
def txOrd (a b : Txn) : Prop :=
  sqlLt b.date a.date = true ∨ (a.date = b.date ∧ b.id ≤ a.id)

instance : DecidableRel txOrd := fun a b =>
  inferInstanceAs (Decidable (sqlLt b.date a.date = true ∨ (a.date = b.date ∧ b.id ≤ a.id)))

/-- The `GET /api/transactions` handler: trim `q` and `type`, add an exact
type clause when the trimmed type is non-empty, add the three-field `LIKE`
clause when the trimmed `q` is non-empty, order by date then id descending
and paginate with `LIMIT ? OFFSET ?`. -/
def apiTransactions (txns : List Txn) (qRaw tyRaw : String)
    (limit offset : Nat) : List Txn :=
  let q := jsTrim qRaw
  let ty := jsTrim tyRaw
  let typeClause : Txn → Bool := fun t => if ty == "" then true else t.type == ty
  let qClause : Txn → Bool := fun t =>
    if q == "" then true
    else likeContains q t.reference || likeContains q t.account || likeContains q t.date
  ((List.insertionSort txOrd
      (txns.filter (fun t => typeClause t && qClause t))).drop offset).take limit

/-- The transaction-list membership predicate as the specification words
it, with the substring clause amended to SQLite `LIKE` semantics: when
the trimmed type is given the row's type must equal it; when the trimmed
`q` is given it must `LIKE`-match reference, account or date. -/
def specTxnMatch (q ty : String) (t : Txn) : Bool :=
  (ty == "" || t.type == ty) &&
    (q == "" || likeContains q t.reference || likeContains q t.account ||
      likeContains q t.date)

/-! ## Transaction create / update / delete -/

/-- A request body for create/update: the four required text fields
(JavaScript treats a missing field and an empty string alike — both are
falsy — so a missing field is embedded as the empty string) and the two
optional amounts, which destructuring defaults to 0 when absent. -/
structure TxBody where
  date : String
  reference : String
  type : String
  account : String
  debit : Option ℚ
  credit : Option ℚ
  deriving DecidableEq, Repr

/-- The validation guard `!date || !reference || !type || !account`. -/
def requiredMissing (b : TxBody) : Bool :=
  b.date == "" || b.reference == "" || b.type == "" || b.account == ""

/-- Embedding of `SELECT * FROM transactions WHERE id = ?` through
`getAsync`: the first matching row, if any. -/
def getById (rows : List Txn) (id : Nat) : Option Txn :=
  rows.find? (fun t => t.id == id)

/-- Response of `POST /api/transactions`. -/
inductive CreateResult
  | badRequest
  | ok (row : Option Txn)
  deriving DecidableEq, Repr

/-- The `POST /api/transactions` handler: reject when a required field is
missing or empty (before touching the store); otherwise insert a row with
the next sequence id and read it back by `lastID`. -/
def postTransaction (st : TxStore) (b : TxBody) : CreateResult × TxStore :=
  if requiredMissing b then (.badRequest, st)
  else
    let newRow : Txn :=
      { id := st.seq + 1, date := b.date, reference := b.reference,
        type := b.type, account := b.account,
        debit := b.debit.getD 0, credit := b.credit.getD 0 }
    let st' : TxStore := ⟨st.rows ++ [newRow], st.seq + 1⟩
    (.ok (getById st'.rows (st.seq + 1)), st')

/-- Response of `PUT /api/transactions/:id`. -/
inductive UpdateResult
  | badRequest
  | ok (changes : Nat) (row : Option Txn)
  deriving DecidableEq, Repr

/-- The `PUT /api/transactions/:id` handler: same validation as create;
`UPDATE ... WHERE id = ?` rewrites every row with the given id (its change
count is the number of such rows) and the row is then read back. -/
def updateTransaction (st : TxStore) (id : Nat) (b : TxBody) :
    UpdateResult × TxStore :=
  if requiredMissing b then (.badRequest, st)
  else
    let rows' := st.rows.map (fun t =>
      if t.id == id then
        { t with date := b.date, reference := b.reference, type := b.type,
                 account := b.account, debit := b.debit.getD 0,
                 credit := b.credit.getD 0 }
      else t)
    let changes := (st.rows.filter (fun t => t.id == id)).length
    (.ok changes (getById rows' id), ⟨rows', st.seq⟩)

/-- The `DELETE /api/transactions/:id` handler: `DELETE ... WHERE id = ?`
removes every row with the given id and reports how many it removed. -/
def deleteTransaction (st : TxStore) (id : Nat) : Nat × TxStore :=
  ((st.rows.filter (fun t => t.id == id)).length,
   ⟨st.rows.filter (fun t => !(t.id == id)), st.seq⟩)

/-! ## CSV export (`GET /api/transactions/export`) -/

/-- Rendering of a numeric amount into the CSV text.  The stored amounts
of interest are integral, and JavaScript prints an integral number as its
plain decimal form; non-integral rationals (which stand in for SQLite
`REAL`s) are rendered as `num/den`, a placeholder — no claim inspects the
digits of a non-integral amount. -/
def renderNum (q : ℚ) : String :=
  if q.den = 1 then toString q.num else toString q

/-- A CSV field as emitted by the export handler's template: the rendered
value wrapped in one double quote on each side. -/
def csvField (v : String) : String := ⟨'"' :: v.data ++ ['"']⟩

/-- One CSV line: the six values (reference and account with embedded
double quotes doubled), each quote-wrapped, joined with commas. -/
def csvLine (t : Txn) : String :=
  String.intercalate ","
    ([t.date, escQuotes t.reference, t.type, escQuotes t.account,
      renderNum t.debit, renderNum t.credit].map csvField)

/-- The header line written first by the export handler. -/
def csvHeader : String := "Date,Reference,Type,Account,Debit,Credit\n"

/-- Split a character list on a separator character (the semantics of
JavaScript `split`): used to count the columns of a CSV line. -/
def splitOnCh (sep : Char) : List Char → List (List Char)
  | [] => [[]]
  | c :: t =>
    let r := splitOnCh sep t
    if c == sep then [] :: r else (c :: r.headD []) :: r.tail

/-- The `ORDER BY date DESC` relation (no tie-break in this query). -/
def dateDescOrd (a b : Txn) : Prop := sqlLe b.date a.date = true

instance : DecidableRel dateDescOrd :=
  fun a b => inferInstanceAs (Decidable (sqlLe b.date a.date = true))

/-- The `GET /api/transactions/export` handler: the header, then one line
per transaction, ordered by date descending. -/
def apiExportCsv (txns : List Txn) : String :=
  csvHeader ++
    String.join ((List.insertionSort dateDescOrd txns).map (fun t => csvLine t ++ "\n"))

/-! ## Order lemmas for the byte-wise comparison -/

theorem bytesLt_irrefl : ∀ x : List Char, bytesLt x x = false
  | [] => rfl
  | a :: as => by simp [bytesLt, bytesLt_irrefl as]

theorem bytesLe_eq_not_lt : ∀ x y : List Char, bytesLe x y = !bytesLt y x
  | [], [] => rfl
  | [], _ :: _ => rfl
  | _ :: _, [] => rfl
  | a :: as, b :: bs => by
    rcases Nat.lt_trichotomy a.toNat b.toNat with h | h | h
    · simp [bytesLe, bytesLt, h, Nat.lt_asymm h]
    · simp [bytesLe, bytesLt, h, Nat.lt_irrefl, bytesLe_eq_not_lt as bs]
    · simp [bytesLe, bytesLt, h, Nat.lt_asymm h]

theorem bytesLt_asymm : ∀ {x y : List Char}, bytesLt x y = true → bytesLt y x = false
  | [], [], h => by simp [bytesLt] at h
  | [], _ :: _, _ => rfl
  | _ :: _, [], h => by simp [bytesLt] at h
  | a :: as, b :: bs, h => by
    rcases Nat.lt_trichotomy a.toNat b.toNat with hc | hc | hc
    · simp [bytesLt, hc, Nat.lt_asymm hc]
    · simp only [bytesLt, hc, Nat.lt_irrefl, if_false, if_neg] at h ⊢
      exact bytesLt_asymm h
    · simp [bytesLt, hc, Nat.lt_asymm hc] at h

theorem bytesLt_eq_of_not : ∀ {x y : List Char},
    bytesLt x y = false → bytesLt y x = false → x = y
  | [], [], _, _ => rfl
  | [], _ :: _, h, _ => by simp [bytesLt] at h
  | _ :: _, [], _, h => by simp [bytesLt] at h
  | a :: as, b :: bs, h1, h2 => by
    rcases Nat.lt_trichotomy a.toNat b.toNat with hc | hc | hc
    · simp [bytesLt, hc] at h1
    · simp only [bytesLt, hc, Nat.lt_irrefl, if_false, if_neg] at h1 h2
      have hab : a = b := Char.ext (UInt32.ext hc)
      rw [hab, bytesLt_eq_of_not h1 h2]
    · simp [bytesLt, hc] at h2

theorem bytesLt_trans : ∀ {x y z : List Char},
    bytesLt x y = true → bytesLt y z = true → bytesLt x z = true
  | [], _, c :: cs, _, _ => by simp [bytesLt]
  | [], b :: bs, [], _, h2 => by simp [bytesLt] at h2
  | [], [], [], h1, _ => by simp [bytesLt] at h1
  | _ :: _, [], _, h1, _ => by simp [bytesLt] at h1
  | _ :: _, _ :: _, [], _, h2 => by simp [bytesLt] at h2
  | a :: as, b :: bs, c :: cs, h1, h2 => by
    rcases Nat.lt_trichotomy a.toNat b.toNat with hab | hab | hab
    · rcases Nat.lt_trichotomy b.toNat c.toNat with hbc | hbc | hbc
      · have : a.toNat < c.toNat := Nat.lt_trans hab hbc
        simp [bytesLt, this]
      · simp [bytesLt, hbc ▸ hab]
      · simp [bytesLt, hbc, Nat.lt_asymm hbc] at h2
    · rcases Nat.lt_trichotomy b.toNat c.toNat with hbc | hbc | hbc
      · simp [bytesLt, hab ▸ hbc]
      · simp only [bytesLt, hab, hbc, Nat.lt_irrefl, if_false, if_neg] at h1 h2 ⊢
        exact bytesLt_trans h1 h2
      · simp [bytesLt, hbc, Nat.lt_asymm hbc] at h2
    · simp [bytesLt, hab, Nat.lt_asymm hab] at h1

theorem bytesLe_refl (x : List Char) : bytesLe x x = true := by
  rw [bytesLe_eq_not_lt, bytesLt_irrefl]; rfl

theorem bytesLe_of_lt {x y : List Char} (h : bytesLt x y = true) :
    bytesLe x y = true := by
  rw [bytesLe_eq_not_lt, bytesLt_asymm h]; rfl

theorem bytesLe_total (x y : List Char) :
    bytesLe x y = true ∨ bytesLe y x = true := by
  rw [bytesLe_eq_not_lt, bytesLe_eq_not_lt]
  cases h : bytesLt y x
  · left; rfl
  · right; rw [bytesLt_asymm h]; rfl

theorem bytesLe_trans {x y z : List Char} (h1 : bytesLe x y = true)
    (h2 : bytesLe y z = true) : bytesLe x z = true := by
  rw [bytesLe_eq_not_lt] at h1 h2 ⊢
  cases hzx : bytesLt z x
  · rfl
  · exfalso
    cases hxy : bytesLt x y
    · cases hyx : bytesLt y x
      · rw [bytesLt_eq_of_not hxy hyx] at hzx
        rw [hzx] at h2; simp at h2
      · rw [hyx] at h1; simp at h1
    · have := bytesLt_trans hzx hxy
      rw [this] at h2; simp at h2

theorem bytesLe_append_left : ∀ (p : List Char) {x y : List Char},
    bytesLe x y = true → bytesLe (p ++ x) (p ++ y) = true
  | [], _, _, h => h
  | c :: p, x, y, h => by
    simp only [List.cons_append, bytesLe, Nat.lt_irrefl, if_false]
    exact bytesLe_append_left p h

theorem bytesLt_append_left : ∀ (p : List Char) {x y : List Char},
    bytesLt x y = true → bytesLt (p ++ x) (p ++ y) = true
  | [], _, _, h => h
  | c :: p, x, y, h => by
    simp only [List.cons_append, bytesLt, Nat.lt_irrefl, if_false]
    exact bytesLt_append_left p h

theorem bytesLt_append : ∀ {x y : List Char} (a b : List Char),
    x.length = y.length → bytesLt x y = true → bytesLt (x ++ a) (y ++ b) = true
  | [], [], _, _, _, h => by simp [bytesLt] at h
  | [], _ :: _, _, _, hl, _ => by simp at hl
  | _ :: _, [], _, _, hl, _ => by simp at hl
  | c :: x, d :: y, a, b, hl, h => by
    rcases Nat.lt_trichotomy c.toNat d.toNat with hc | hc | hc
    · simp [bytesLt, hc]
    · simp only [bytesLt, hc, Nat.lt_irrefl, if_false, if_neg] at h ⊢
      exact bytesLt_append a b (by simpa using hl) h
    · simp [bytesLt, hc, Nat.lt_asymm hc] at h

/-! ## Digit rendering and month-key monotonicity -/

theorem digitCh_toNat {n : Nat} (h : n ≤ 9) : (digitCh n).toNat = 48 + n := by
  interval_cases n <;> rfl

theorem digits2_length (n : Nat) : (digits2 n).length = 2 := rfl

theorem digits4_length (n : Nat) : (digits4 n).length = 4 := rfl

theorem digitCh_mod_toNat (n : Nat) : (digitCh (n % 10)).toNat = 48 + n % 10 :=
  digitCh_toNat (by omega)

theorem digits4_lt {a b : Nat} (hab : a < b) (hb : b ≤ 9999) :
    bytesLt (digits4 a) (digits4 b) = true := by
  simp only [digits4, bytesLt, digitCh_mod_toNat]
  split_ifs <;> first | rfl | omega

theorem digits2_lt {a b : Nat} (hab : a < b) (hb : b ≤ 99) :
    bytesLt (digits2 a) (digits2 b) = true := by
  simp only [digits2, bytesLt, digitCh_mod_toNat]
  split_ifs <;> first | rfl | omega

theorem ymKey_data (idx : Int) :
    (ymKey idx).data = digits4 (idx / 12).toNat ++ '-' :: digits2 ((idx % 12).toNat + 1) := rfl

theorem ymKey_length (idx : Int) : (ymKey idx).data.length = 7 := rfl

theorem ymKey_lt {i j : Int} (h0 : 0 ≤ i) (hij : i < j) (hj : j ≤ 119999) :
    sqlLt (ymKey i) (ymKey j) = true := by
  have hyij : i / 12 < j / 12 ∨ (i / 12 = j / 12 ∧ i % 12 < j % 12) := by omega
  show bytesLt (ymKey i).data (ymKey j).data = true
  rw [ymKey_data, ymKey_data]
  rcases hyij with hy | ⟨hy, hm⟩
  · exact bytesLt_append _ _ (by simp [digits4_length])
      (digits4_lt (by omega) (by omega))
  · rw [hy, List.append_cons, List.append_cons]
    refine bytesLt_append_left _ ?_
    exact digits2_lt (by omega) (by omega)

/-! ## Calendar dates and the bucketed query

A transaction whose date is a well-formed `YYYY-MM-DD` and whose `YYYY-MM`
prefix is a bucket month `m` automatically satisfies the query's single
lower bound `months[0] + '-01'`, because `m` is at or after the oldest
bucket and the day part is at least `01`.  This is what lets the handler
query once per series instead of once per month. -/

theorem digVal_some {c : Char} {v : Nat} (h : digVal c = some v) :
    48 ≤ c.toNat ∧ c.toNat ≤ 57 ∧ v = c.toNat - 48 := by
  unfold digVal at h
  split_ifs at h with hc
  simp only [Bool.and_eq_true, decide_eq_true_eq] at hc
  exact ⟨hc.1, hc.2, (Option.some_inj.mp h).symm⟩

theorem twoDigVal_some {a b : Char} {v : Nat} (h : twoDigVal a b = some v) :
    48 ≤ a.toNat ∧ a.toNat ≤ 57 ∧ 48 ≤ b.toNat ∧ b.toNat ≤ 57 ∧
      v = 10 * (a.toNat - 48) + (b.toNat - 48) := by
  unfold twoDigVal at h
  cases ha : digVal a with
  | none => rw [ha] at h; simp at h
  | some x =>
    cases hb : digVal b with
    | none => rw [ha, hb] at h; simp at h
    | some y =>
      rw [ha, hb] at h
      simp only [Option.some_inj] at h
      obtain ⟨ha1, ha2, ha3⟩ := digVal_some ha
      obtain ⟨hb1, hb2, hb3⟩ := digVal_some hb
      exact ⟨ha1, ha2, hb1, hb2, by omega⟩

theorem dayOk_ge01 {d1 d2 : Char} (h : dayOk d1 d2 = true) :
    bytesLe ['-', '0', '1'] ['-', d1, d2] = true := by
  unfold dayOk at h
  cases htd : twoDigVal d1 d2 with
  | none => rw [htd] at h; simp at h
  | some v =>
    rw [htd] at h
    simp only [Bool.and_eq_true, decide_eq_true_eq] at h
    obtain ⟨h1, h2, h3, h4, h5⟩ := twoDigVal_some htd
    have e1 : ('-').toNat = 45 := rfl
    have e2 : ('0').toNat = 48 := rfl
    have e3 : ('1').toNat = 49 := rfl
    simp only [bytesLe, e1, e2, e3]
    split_ifs <;> first | rfl | omega

theorem isCalendarDate_decomp {d : String} (h : isCalendarDate d = true) :
    ∃ p d1 d2, d.data = p ++ ['-', d1, d2] ∧ p.length = 7 ∧ dayOk d1 d2 = true := by
  unfold isCalendarDate at h
  split at h
  case _ y1 y2 y3 y4 hh1 m1 m2 hh2 dd1 dd2 heq =>
    simp only [Bool.and_eq_true, beq_iff_eq] at h
    obtain ⟨⟨⟨⟨⟨⟨⟨hy1, hy2⟩, hy3⟩, hy4⟩, hhh1⟩, hhh2⟩, hmo⟩, hdo⟩ := h
    refine ⟨[y1, y2, y3, y4, hh1, m1, m2], dd1, dd2, ?_, rfl, hdo⟩
    rw [heq, hhh2]
    rfl
  case _ => simp at h

theorem calDate_lower_le {d m0 m : String} (hcal : isCalendarDate d = true)
    (hpre : substr7 d = m) (hlen : m0.data.length = 7)
    (hle : m0 = m ∨ sqlLt m0 m = true) :
    bytesLe (m0.data ++ ['-', '0', '1']) d.data = true := by
  obtain ⟨p, d1, d2, hd, hp7, hdo⟩ := isCalendarDate_decomp hcal
  have hm : m.data = p := by
    rw [← hpre]
    show d.data.take 7 = p
    rw [hd, ← hp7, List.take_left]
  rcases hle with he | hlt
  · rw [he, hm, hd]
    exact bytesLe_append_left p (dayOk_ge01 hdo)
  · refine bytesLe_of_lt ?_
    rw [hd]
    exact bytesLt_append _ _ (by rw [hlen, hp7]) (hm ▸ hlt)

/-! ## Series lemmas -/

theorem jsRound_intCast (n : ℤ) : jsRound (n : ℚ) = n := by
  unfold jsRound
  rw [add_comm, Int.floor_add_int]
  have hf : ⌊(1 : ℚ) / 2⌋ = 0 := by
    rw [Int.floor_eq_iff]
    norm_num
  rw [hf, zero_add]

theorem jsRound_zero : jsRound 0 = 0 := by
  have := jsRound_intCast 0
  simpa using this

theorem monthSum_zero_of_not_present {txns : List Txn} {ty lower m : String}
    (h : monthPresent txns ty lower m = false) : monthSum txns ty lower m = 0 := by
  unfold monthPresent at h
  rw [List.any_eq_false] at h
  unfold monthSum
  rw [List.filter_eq_nil_iff.mpr h]
  rfl

theorem seriesEntry_eq_round (txns : List Txn) (ty lower m : String) :
    seriesEntry txns ty lower m = jsRound (monthSum txns ty lower m) := by
  unfold seriesEntry
  split_ifs with h
  · rfl
  · push_neg at h
    by_cases hp : monthPresent txns ty lower m = true
    · rw [h hp, jsRound_zero]
    · rw [monthSum_zero_of_not_present (Bool.eq_false_iff.mpr hp), jsRound_zero]

theorem monthsList_length (t : Today) (mc : Int) :
    (monthsList t mc).length = mc.toNat := by
  simp [monthsList]

theorem monthsList_getElem (t : Today) (mc : Int) (j : Nat) (hj : j < mc.toNat) :
    (monthsList t mc)[j]? = some (ymKey (monthIdx t - (mc - 1) + j)) := by
  unfold monthsList
  rw [List.getElem?_map, List.getElem?_range hj]
  rfl

theorem monthsList_headD (t : Today) (mc : Int) (h : 1 ≤ mc) :
    (monthsList t mc).headD "undefined" = ymKey (monthIdx t - (mc - 1)) := by
  unfold monthsList
  have h1 : mc.toNat = (mc.toNat - 1) + 1 := by omega
  rw [h1, List.range_succ_eq_map]
  simp

theorem monthsList_pairwise (t : Today) (mc : Int)
    (hlo : 1200 ≤ monthIdx t - (mc - 1)) (hhi : monthIdx t ≤ 119999) :
    (monthsList t mc).Pairwise (fun a b => sqlLt a b = true) := by
  unfold monthsList
  rw [List.pairwise_map]
  refine (List.pairwise_lt_range mc.toNat).imp_of_mem ?_
  intro a b ha hb hab
  have ha' : a < mc.toNat := List.mem_range.mp ha
  have hb' : b < mc.toNat := List.mem_range.mp hb
  exact ymKey_lt (by omega) (by omega) (by omega)

theorem monthSum_eq_prefix {txns : List Txn} {ty m0 m : String}
    (hlen : m0.data.length = 7) (hle : m0 = m ∨ sqlLt m0 m = true)
    (hdates : ∀ x ∈ txns, isCalendarDate x.date = true) :
    monthSum txns ty (⟨m0.data ++ ['-', '0', '1']⟩ : String) m =
      prefixMonthSum txns ty m := by
  unfold monthSum prefixMonthSum
  refine congrArg List.sum (congrArg (List.map Txn.debit) ?_)
  refine List.filter_congr ?_
  intro x hx
  cases hsub : (substr7 x.date == m) with
  | false => simp [hsub]
  | true =>
    have hq : sqlLe (⟨m0.data ++ ['-', '0', '1']⟩ : String) x.date = true := by
      show bytesLe (m0.data ++ ['-', '0', '1']) x.date.data = true
      exact calDate_lower_le (hdates x hx) (beq_iff_eq.mp hsub) hlen hle
    simp [hsub, hq]

/-! ## Ordering relations used by the SQL sorts -/

theorem txOrd_total : ∀ a b : Txn, txOrd a b ∨ txOrd b a := by
  intro a b
  unfold txOrd
  cases h1 : sqlLt b.date a.date with
  | true => exact Or.inl (Or.inl rfl)
  | false =>
    cases h2 : sqlLt a.date b.date with
    | true => exact Or.inr (Or.inl rfl)
    | false =>
      have hde : a.date = b.date := String.ext (bytesLt_eq_of_not h2 h1)
      rcases Nat.le_total b.id a.id with hle | hle
      · exact Or.inl (Or.inr ⟨hde, hle⟩)
      · exact Or.inr (Or.inr ⟨hde.symm, hle⟩)

theorem txOrd_trans : ∀ a b c : Txn, txOrd a b → txOrd b c → txOrd a c := by
  intro a b c hab hbc
  rcases hab with h1 | ⟨hd1, hi1⟩ <;> rcases hbc with h2 | ⟨hd2, hi2⟩
  · exact Or.inl (bytesLt_trans h2 h1)
  · exact Or.inl (hd2 ▸ h1)
  · exact Or.inl (hd1.symm ▸ h2)
  · exact Or.inr ⟨hd1.trans hd2, le_trans hi2 hi1⟩

theorem dateDescOrd_total : ∀ a b : Txn, dateDescOrd a b ∨ dateDescOrd b a :=
  fun a b => bytesLe_total b.date.data a.date.data

theorem dateDescOrd_trans :
    ∀ a b c : Txn, dateDescOrd a b → dateDescOrd b c → dateDescOrd a c :=
  fun _ _ _ h1 h2 => bytesLe_trans h2 h1

/-! ## Sum bookkeeping for the category breakdown -/

theorem beq_nat_comm (a b : Nat) : (a == b) = (b == a) := by
  by_cases h : a = b
  · rw [h]
  · rw [beq_eq_false_iff_ne.mpr h, beq_eq_false_iff_ne.mpr (Ne.symm h)]

theorem sum_filter_or_disjoint {α : Type} (f : α → ℚ) (p q : α → Bool) :
    ∀ l : List α, (∀ x ∈ l, ¬(p x = true ∧ q x = true)) →
      ((l.filter (fun x => p x || q x)).map f).sum =
        ((l.filter p).map f).sum + ((l.filter q).map f).sum := by
  intro l
  induction l with
  | nil => simp
  | cons a t ih =>
    intro hdisj
    have hd := hdisj a (List.mem_cons_self a t)
    have ht := ih (fun x hx => hdisj x (List.mem_cons_of_mem _ hx))
    cases hp : p a <;> cases hq : q a
    · simp [List.filter_cons, hp, hq, ht]
    · simp [List.filter_cons, hp, hq, ht]
      ring
    · simp [List.filter_cons, hp, hq, ht]
      ring
    · exact absurd ⟨hp, hq⟩ hd

theorem catTotal_sum (sales : List CategorySale) (month : String) :
    ∀ cats : List Category, (cats.map Category.id).Nodup →
      (cats.map (fun c => catTotal sales c.id month)).sum =
        ((sales.filter (fun s => s.month == month &&
          cats.any (fun c => c.id == s.category_id))).map
            CategorySale.amount).sum := by
  intro cats
  induction cats with
  | nil => simp
  | cons c cs ih =>
    intro hnd
    rw [List.map_cons] at hnd
    have hcid : c.id ∉ cs.map Category.id := (List.nodup_cons.mp hnd).1
    have hnd' : (cs.map Category.id).Nodup := (List.nodup_cons.mp hnd).2
    rw [List.map_cons, List.sum_cons, ih hnd']
    have hpred : ∀ s : CategorySale,
        (s.month == month && (c :: cs).any (fun c' => c'.id == s.category_id)) =
        ((s.month == month && c.id == s.category_id) ||
          (s.month == month && cs.any (fun c' => c'.id == s.category_id))) := by
      intro s
      rw [List.any_cons, Bool.and_or_distrib_left]
    have hdisj : ∀ s ∈ sales,
        ¬((s.month == month && c.id == s.category_id) = true ∧
          (s.month == month && cs.any (fun c' => c'.id == s.category_id)) = true) := by
      intro s _ ⟨ha, hb⟩
      simp only [Bool.and_eq_true, beq_iff_eq, List.any_eq_true] at ha hb
      obtain ⟨c', hc', hc'id⟩ := hb.2
      exact hcid (ha.2 ▸ hc'id ▸ List.mem_map_of_mem Category.id hc')
    calc catTotal sales c.id month +
          ((sales.filter (fun s => s.month == month &&
            cs.any (fun c' => c'.id == s.category_id))).map
              CategorySale.amount).sum
        = ((sales.filter (fun s => s.month == month &&
            c.id == s.category_id)).map CategorySale.amount).sum +
          ((sales.filter (fun s => s.month == month &&
            cs.any (fun c' => c'.id == s.category_id))).map
              CategorySale.amount).sum := by
          unfold catTotal
          congr 2
          exact congrArg (List.map CategorySale.amount)
            (List.filter_congr (fun s _ => by rw [Bool.and_comm, beq_nat_comm]))
      _ = ((sales.filter (fun s => s.month == month &&
            (c :: cs).any (fun c' => c'.id == s.category_id))).map
              CategorySale.amount).sum := by
          rw [(List.filter_congr (fun s _ => hpred s) :
            sales.filter _ = sales.filter _)]
          exact (sum_filter_or_disjoint CategorySale.amount _ _ sales hdisj).symm

/-! ## Claim C1 — stats totals -/

/-- C1: for every state of the transactions and inventory stores, the
stats operation returns revenue equal to the sum of debit over
transactions with type `invoice`, expenses equal to the sum of debit over
transactions with type `expense`, stock equal to the sum of stock over
all inventory rows, and profit equal to revenue minus expenses; an empty
store yields all-zero stats (never null/undefined). -/
theorem claim_C1_stats (txns : List Txn) (inv : List InventoryItem) :
    (apiStats txns inv).revenue = sumDebit txns "invoice" ∧
    (apiStats txns inv).expenses = sumDebit txns "expense" ∧
    (apiStats txns inv).stock = sumStock inv ∧
    (apiStats txns inv).profit =
      (apiStats txns inv).revenue - (apiStats txns inv).expenses ∧
    apiStats [] [] = ⟨0, 0, 0, 0⟩ := by
  have horz : ∀ x : ℚ, orZero x = x := by
    intro x
    unfold orZero
    split_ifs with h
    · exact h.symm
    · rfl
  refine ⟨horz _, horz _, ?_, by simp [apiStats, horz], ?_⟩
  · show (if sumStock inv = 0 then 0 else sumStock inv) = sumStock inv
    split_ifs with h
    · exact h.symm
    · rfl
  · simp [apiStats, orZero, sumDebit, sumStock]

/-! ## Claim C2 — series shape -/

/-- C2: for every positive `monthsCount` (within the year range 100–9999
where the embedded date rendering agrees with `toISOString`), the revenue
time-series returns four arrays of length exactly `monthsCount`, whose
months are consecutive calendar-month keys ending at the current month
inclusive, in oldest-to-newest order. -/
theorem claim_C2_series_shape (txns : List Txn) (t : Today) (mc : Int)
    (hmc : 1 ≤ mc) (hlo : 1200 ≤ monthIdx t - (mc - 1))
    (hhi : monthIdx t ≤ 119999) :
    (apiRevenueSeries txns t mc).labels.length = mc.toNat ∧
    (apiRevenueSeries txns t mc).months.length = mc.toNat ∧
    (apiRevenueSeries txns t mc).revenue.length = mc.toNat ∧
    (apiRevenueSeries txns t mc).expenses.length = mc.toNat ∧
    (∀ j : Nat, j < mc.toNat →
      (apiRevenueSeries txns t mc).months[j]? =
        some (ymKey (monthIdx t - (mc - 1) + j))) ∧
    (apiRevenueSeries txns t mc).months.getLast? = some (ymKey (monthIdx t)) ∧
    (apiRevenueSeries txns t mc).months.Pairwise (fun a b => sqlLt a b = true) := by
  have hm : (apiRevenueSeries txns t mc).months = monthsList t mc := rfl
  have hlen := monthsList_length t mc
  refine ⟨?_, ?_, ?_, ?_, ?_, ?_, ?_⟩
  · show ((monthsList t mc).map monthLabel).length = mc.toNat
    rw [List.length_map, hlen]
  · rw [hm, hlen]
  · show ((monthsList t mc).map _).length = mc.toNat
    rw [List.length_map, hlen]
  · show ((monthsList t mc).map _).length = mc.toNat
    rw [List.length_map, hlen]
  · intro j hj
    rw [hm]
    exact monthsList_getElem t mc j hj
  · rw [hm, List.getLast?_eq_getElem?, hlen]
    have hj : mc.toNat - 1 < mc.toNat := by omega
    rw [monthsList_getElem t mc _ hj]
    have : monthIdx t - (mc - 1) + ((mc.toNat - 1 : Nat) : Int) = monthIdx t := by
      omega
    rw [this]
  · rw [hm]
    exact monthsList_pairwise t mc hlo hhi

/-- Witness for C2 at a concrete input: three months ending October 2025. -/
theorem claim_C2_series_shape_witness :
    (1 ≤ (3 : Int) ∧ 1200 ≤ monthIdx ⟨2025, 9⟩ - (3 - 1) ∧
      monthIdx ⟨2025, 9⟩ ≤ 119999) ∧
    (apiRevenueSeries [] ⟨2025, 9⟩ 3).months.length = (3 : Int).toNat ∧
    (apiRevenueSeries [] ⟨2025, 9⟩ 3).months[1]? =
      some (ymKey (monthIdx ⟨2025, 9⟩ - (3 - 1) + (1 : Nat))) ∧
    (apiRevenueSeries [] ⟨2025, 9⟩ 3).months.getLast? =
      some (ymKey (monthIdx ⟨2025, 9⟩)) := by
  have h := claim_C2_series_shape [] ⟨2025, 9⟩ 3 (by norm_num)
    (by norm_num [monthIdx]) (by norm_num [monthIdx])
  exact ⟨⟨by norm_num, by norm_num [monthIdx], by norm_num [monthIdx]⟩,
    h.2.1, h.2.2.2.2.1 1 (by norm_num), h.2.2.2.2.2.1⟩

/-! ## Claim C3 — series bucket values -/

/-- C3: in the revenue time-series over a store of well-formed calendar
dates, the j-th revenue (resp. expenses) entry equals the sum of debit
over transactions of type `invoice` (resp. `expense`) whose date's
`YYYY-MM` prefix is the j-th bucket month, rounded to the nearest
integer; a month absent from the grouped query result yields 0, and a
month whose sum is 0 also yields 0 (rounding is only ever applied to a
present, non-zero lookup). -/
theorem claim_C3_series_buckets (txns : List Txn) (t : Today) (mc : Int)
    (j : Nat) (hmc : 1 ≤ mc) (hlo : 1200 ≤ monthIdx t - (mc - 1))
    (hhi : monthIdx t ≤ 119999) (hj : j < mc.toNat)
    (hdates : ∀ x ∈ txns, isCalendarDate x.date = true) :
    (apiRevenueSeries txns t mc).revenue[j]? =
      some (jsRound (prefixMonthSum txns "invoice"
        (ymKey (monthIdx t - (mc - 1) + j)))) ∧
    (apiRevenueSeries txns t mc).expenses[j]? =
      some (jsRound (prefixMonthSum txns "expense"
        (ymKey (monthIdx t - (mc - 1) + j)))) ∧
    (monthPresent txns "invoice" (lowerBound (monthsList t mc))
        (ymKey (monthIdx t - (mc - 1) + j)) = false →
      (apiRevenueSeries txns t mc).revenue[j]? = some 0) ∧
    (prefixMonthSum txns "invoice" (ymKey (monthIdx t - (mc - 1) + j)) = 0 →
      (apiRevenueSeries txns t mc).revenue[j]? = some 0) := by
  have hget : (monthsList t mc)[j]? =
      some (ymKey (monthIdx t - (mc - 1) + j)) := monthsList_getElem t mc j hj
  have hrev : ∀ ty : String, (apiRevenueSeries txns t mc).revenue[j]? =
      some (seriesEntry txns "invoice" (lowerBound (monthsList t mc))
        (ymKey (monthIdx t - (mc - 1) + j))) := by
    intro _
    show ((monthsList t mc).map
      (seriesEntry txns "invoice" (lowerBound (monthsList t mc))))[j]? = _
    rw [List.getElem?_map, hget]
    rfl
  have hexp : (apiRevenueSeries txns t mc).expenses[j]? =
      some (seriesEntry txns "expense" (lowerBound (monthsList t mc))
        (ymKey (monthIdx t - (mc - 1) + j))) := by
    show ((monthsList t mc).map
      (seriesEntry txns "expense" (lowerBound (monthsList t mc))))[j]? = _
    rw [List.getElem?_map, hget]
    rfl
  have hlower : lowerBound (monthsList t mc) =
      (⟨(ymKey (monthIdx t - (mc - 1))).data ++ ['-', '0', '1']⟩ : String) := by
    unfold lowerBound
    rw [monthsList_headD t mc hmc]
  have hle : ymKey (monthIdx t - (mc - 1)) = ymKey (monthIdx t - (mc - 1) + j) ∨
      sqlLt (ymKey (monthIdx t - (mc - 1)))
        (ymKey (monthIdx t - (mc - 1) + j)) = true := by
    rcases Nat.eq_zero_or_pos j with hj0 | hj0
    · left
      rw [hj0]
      norm_num
    · right
      exact ymKey_lt (by omega) (by omega) (by omega)
  have hsum : ∀ ty : String, monthSum txns ty (lowerBound (monthsList t mc))
      (ymKey (monthIdx t - (mc - 1) + j)) =
      prefixMonthSum txns ty (ymKey (monthIdx t - (mc - 1) + j)) := by
    intro ty
    rw [hlower]
    exact monthSum_eq_prefix (ymKey_length _) hle hdates
  refine ⟨?_, ?_, ?_, ?_⟩
  · rw [hrev "invoice", seriesEntry_eq_round, hsum]
  · rw [hexp, seriesEntry_eq_round, hsum]
  · intro h
    rw [hrev "invoice", seriesEntry_eq_round, monthSum_zero_of_not_present h,
      jsRound_zero]
  · intro h
    rw [hrev "invoice", seriesEntry_eq_round, hsum, h, jsRound_zero]

/-- Witness for C3: one invoice of 100 in the single bucket month
September 2025. -/
theorem claim_C3_series_buckets_witness :
    ((1 : Int) ≤ 1 ∧ 1200 ≤ monthIdx ⟨2025, 8⟩ - (1 - 1) ∧
      monthIdx ⟨2025, 8⟩ ≤ 119999 ∧ (0 : Nat) < (1 : Int).toNat ∧
      (∀ x ∈ [(⟨1, "2025-09-05", "r", "invoice", "a", 100, 0⟩ : Txn)],
        isCalendarDate x.date = true)) ∧
    (apiRevenueSeries [⟨1, "2025-09-05", "r", "invoice", "a", 100, 0⟩]
        ⟨2025, 8⟩ 1).revenue[0]? =
      some (jsRound (prefixMonthSum
        [⟨1, "2025-09-05", "r", "invoice", "a", 100, 0⟩] "invoice"
        (ymKey (monthIdx ⟨2025, 8⟩ - (1 - 1) + (0 : Nat))))) := by
  refine ⟨⟨by norm_num, by norm_num [monthIdx], by norm_num [monthIdx],
    by norm_num, by decide⟩, ?_⟩
  exact (claim_C3_series_buckets _ ⟨2025, 8⟩ 1 0 (by norm_num)
    (by norm_num [monthIdx]) (by norm_num [monthIdx]) (by norm_num)
    (by decide)).1

/-! ## Claim C9 — non-positive month counts -/

/-- C9: for every `monthsCount <= 0`, the revenue time-series does not
fail: the bucket loop produces no months, so all four returned arrays are
empty. -/
theorem claim_C9_nonpositive_months (txns : List Txn) (t : Today) (mc : Int)
    (h : mc ≤ 0) : apiRevenueSeries txns t mc = ⟨[], [], [], []⟩ := by
  have h0 : mc.toNat = 0 := by omega
  unfold apiRevenueSeries monthsList
  rw [h0]
  rfl

/-- Witness for C9: zero and negative month counts over a non-empty
store. -/
theorem claim_C9_nonpositive_months_witness :
    ((0 : Int) ≤ 0 ∧
      apiRevenueSeries [⟨1, "2025-09-05", "r", "invoice", "a", 100, 0⟩]
        ⟨2025, 8⟩ 0 = ⟨[], [], [], []⟩) ∧
    ((-3 : Int) ≤ 0 ∧
      apiRevenueSeries [⟨1, "2025-09-05", "r", "invoice", "a", 100, 0⟩]
        ⟨2025, 8⟩ (-3) = ⟨[], [], [], []⟩) :=
  ⟨⟨by norm_num, claim_C9_nonpositive_months _ _ _ (by norm_num)⟩,
   ⟨by norm_num, claim_C9_nonpositive_months _ _ _ (by norm_num)⟩⟩

/-! ## Claim C4 — category breakdown -/

/-- C4: for every month parameter, the category breakdown returns one
entry per category (including saleless categories, whose total is 0 —
the empty sum), each entry's total being the sum of category-sale amounts
restricted to that category and month, ordered by total descending; and
the totals sum to the month's sales total over rows whose category
exists. -/
theorem claim_C4_category_breakdown (cats : List Category)
    (sales : List CategorySale) (month : String)
    (hids : (cats.map Category.id).Nodup) :
    (apiCategorySales cats sales month).length = cats.length ∧
    (∀ c ∈ cats,
      (c.name, catTotal sales c.id month) ∈ apiCategorySales cats sales month) ∧
    (apiCategorySales cats sales month).Pairwise byTotalDesc ∧
    ((apiCategorySales cats sales month).map Prod.snd).sum =
      ((sales.filter (fun s => s.month == month &&
        cats.any (fun c => c.id == s.category_id))).map
          CategorySale.amount).sum := by
  have hperm := List.perm_insertionSort byTotalDesc
    (cats.map (fun c => (c.name, catTotal sales c.id month)))
  refine ⟨?_, ?_, ?_, ?_⟩
  · rw [show apiCategorySales cats sales month =
      List.insertionSort byTotalDesc
        (cats.map (fun c => (c.name, catTotal sales c.id month))) from rfl,
      hperm.length_eq, List.length_map]
  · intro c hc
    exact hperm.mem_iff.mpr (List.mem_map_of_mem _ hc)
  · haveI : IsTotal (String × ℚ) byTotalDesc := ⟨fun a b => le_total b.2 a.2⟩
    haveI : IsTrans (String × ℚ) byTotalDesc := ⟨fun _ _ _ h1 h2 => le_trans h2 h1⟩
    exact List.sorted_insertionSort byTotalDesc _
  · rw [show apiCategorySales cats sales month =
      List.insertionSort byTotalDesc
        (cats.map (fun c => (c.name, catTotal sales c.id month))) from rfl,
      (hperm.map Prod.snd).sum_eq, List.map_map]
    exact catTotal_sum sales month cats hids

/-- Witness for C4: two categories, one sale each in the queried month. -/
theorem claim_C4_category_breakdown_witness :
    (([⟨1, "A"⟩, ⟨2, "B"⟩] : List Category).map Category.id).Nodup ∧
    (apiCategorySales [⟨1, "A"⟩, ⟨2, "B"⟩]
      [⟨1, 1, "2024-01", 5⟩, ⟨2, 2, "2024-01", 9⟩] "2024-01").length = 2 ∧
    ((apiCategorySales [⟨1, "A"⟩, ⟨2, "B"⟩]
      [⟨1, 1, "2024-01", 5⟩, ⟨2, 2, "2024-01", 9⟩] "2024-01").map Prod.snd).sum =
      ((([⟨1, 1, "2024-01", 5⟩, ⟨2, 2, "2024-01", 9⟩] : List CategorySale).filter
        (fun s => s.month == "2024-01" &&
          ([⟨1, "A"⟩, ⟨2, "B"⟩] : List Category).any
            (fun c => c.id == s.category_id))).map CategorySale.amount).sum := by
  have h := claim_C4_category_breakdown [⟨1, "A"⟩, ⟨2, "B"⟩]
    [⟨1, 1, "2024-01", 5⟩, ⟨2, 2, "2024-01", 9⟩] "2024-01" (by decide)
  exact ⟨by decide, h.1, h.2.2.2⟩

/-! ## Claim C5 — transaction list (corrected: LIKE is case-insensitive) -/

/-- C5 counterexample: the claim's case-sensitive substring reading is
false on the code — a row whose reference is `AB` is returned for the
query `ab` although none of reference, account, date contains `ab` as a
case-sensitive substring. -/
theorem claim_C5_counterexample :
    apiTransactions [⟨1, "2024-01-05", "AB", "invoice", "acc", 0, 0⟩]
      "ab" "" 100 0 = [⟨1, "2024-01-05", "AB", "invoice", "acc", 0, 0⟩] ∧
    containsCS "AB" "ab" = false ∧ containsCS "acc" "ab" = false ∧
    containsCS "2024-01-05" "ab" = false := by
  refine ⟨?_, by decide, by decide, by decide⟩
  decide

/-- C5 (amended): the transaction list returns exactly the transactions
matching the trimmed filters — type equal to the trimmed type when given,
and `q` matching reference, account or date under SQLite `LIKE '%q%'`
semantics (ASCII case-insensitive, with wildcards) — ordered by date
descending then id descending, with `offset` rows skipped and at most
`limit` rows returned. -/
theorem claim_C5_transaction_list (txns : List Txn) (qRaw tyRaw : String)
    (limit offset : Nat) :
    apiTransactions txns qRaw tyRaw limit offset =
      ((List.insertionSort txOrd (txns.filter
        (specTxnMatch (jsTrim qRaw) (jsTrim tyRaw)))).drop offset).take limit ∧
    (List.insertionSort txOrd (txns.filter
      (specTxnMatch (jsTrim qRaw) (jsTrim tyRaw)))).Pairwise txOrd ∧
    (List.insertionSort txOrd (txns.filter
      (specTxnMatch (jsTrim qRaw) (jsTrim tyRaw)))).Perm
        (txns.filter (specTxnMatch (jsTrim qRaw) (jsTrim tyRaw))) := by
  refine ⟨?_, ?_, List.perm_insertionSort _ _⟩
  · show ((List.insertionSort txOrd (txns.filter (fun t =>
        (if jsTrim tyRaw == "" then true else t.type == jsTrim tyRaw) &&
        (if jsTrim qRaw == "" then true
         else likeContains (jsTrim qRaw) t.reference ||
           likeContains (jsTrim qRaw) t.account ||
           likeContains (jsTrim qRaw) t.date)))).drop offset).take limit = _
    have hf : txns.filter (fun t =>
        (if jsTrim tyRaw == "" then true else t.type == jsTrim tyRaw) &&
        (if jsTrim qRaw == "" then true
         else likeContains (jsTrim qRaw) t.reference ||
           likeContains (jsTrim qRaw) t.account ||
           likeContains (jsTrim qRaw) t.date)) =
        txns.filter (specTxnMatch (jsTrim qRaw) (jsTrim tyRaw)) := by
      apply List.filter_congr
      intro t _
      unfold specTxnMatch
      cases h1 : (jsTrim tyRaw == "") <;> cases h2 : (jsTrim qRaw == "") <;>
        simp [h1, h2]
    rw [hf]
  · haveI : IsTotal Txn txOrd := ⟨txOrd_total⟩
    haveI : IsTrans Txn txOrd := ⟨txOrd_trans⟩
    exact List.sorted_insertionSort txOrd _

/-! ## Claim C10 — whitespace-only filters are absent -/

/-- C10: the transaction list trims `q` and `type` before use, so a
whitespace-only (or empty) value of either parameter yields the same
result as omitting it; in particular one cannot filter for the empty
type. -/
theorem claim_C10_trim (txns : List Txn) (q ty : String) (limit offset : Nat) :
    (jsTrim q = "" → apiTransactions txns q ty limit offset =
      apiTransactions txns "" ty limit offset) ∧
    (jsTrim ty = "" → apiTransactions txns q ty limit offset =
      apiTransactions txns q "" limit offset) := by
  have h0 : jsTrim "" = "" := rfl
  constructor
  · intro h
    simp only [apiTransactions, h, h0]
  · intro h
    simp only [apiTransactions, h, h0]

/-- Witness for C10: whitespace-only `q` and `type` against a store that
contains a row with empty type. -/
theorem claim_C10_trim_witness :
    (jsTrim "  " = "" ∧
      apiTransactions [⟨1, "2024-01-05", "r", "", "acc", 0, 0⟩] "  " "x" 5 0 =
        apiTransactions [⟨1, "2024-01-05", "r", "", "acc", 0, 0⟩] "" "x" 5 0) ∧
    (jsTrim " " = "" ∧
      apiTransactions [⟨1, "2024-01-05", "r", "", "acc", 0, 0⟩] "q" " " 5 0 =
        apiTransactions [⟨1, "2024-01-05", "r", "", "acc", 0, 0⟩] "q" "" 5 0) :=
  ⟨⟨by decide, (claim_C10_trim _ _ _ _ _).1 (by decide)⟩,
   ⟨by decide, (claim_C10_trim _ _ _ _ _).2 (by decide)⟩⟩

/-! ## Claim C7 — transaction creation -/

/-- C7: creating a transaction with a missing or empty required field
returns a validation error and leaves the store unchanged; otherwise the
row is inserted with the next assigned id, debit/credit defaulting to 0,
and the response carries the newly created row. -/
theorem claim_C7_create (st : TxStore) (b : TxBody)
    (hseq : ∀ x ∈ st.rows, x.id ≤ st.seq) :
    ((b.date = "" ∨ b.reference = "" ∨ b.type = "" ∨ b.account = "") →
      postTransaction st b = (.badRequest, st)) ∧
    (¬(b.date = "" ∨ b.reference = "" ∨ b.type = "" ∨ b.account = "") →
      postTransaction st b =
        (.ok (some { id := st.seq + 1, date := b.date, reference := b.reference,
                     type := b.type, account := b.account,
                     debit := b.debit.getD 0, credit := b.credit.getD 0 }),
         ⟨st.rows ++
            [{ id := st.seq + 1, date := b.date, reference := b.reference,
               type := b.type, account := b.account,
               debit := b.debit.getD 0, credit := b.credit.getD 0 }],
          st.seq + 1⟩)) := by
  have hreq : requiredMissing b = true ↔
      (b.date = "" ∨ b.reference = "" ∨ b.type = "" ∨ b.account = "") := by
    simp [requiredMissing, or_assoc]
  constructor
  · intro h
    unfold postTransaction
    rw [if_pos (hreq.mpr h)]
  · intro h
    have hr : requiredMissing b = false :=
      Bool.eq_false_iff.mpr (fun hh => h (hreq.mp hh))
    have hfind : getById (st.rows ++
        [{ id := st.seq + 1, date := b.date, reference := b.reference,
           type := b.type, account := b.account,
           debit := b.debit.getD 0, credit := b.credit.getD 0 }])
          (st.seq + 1) =
        some { id := st.seq + 1, date := b.date, reference := b.reference,
               type := b.type, account := b.account,
               debit := b.debit.getD 0, credit := b.credit.getD 0 } := by
      unfold getById
      rw [List.find?_append]
      have h1 : st.rows.find? (fun t => t.id == st.seq + 1) = none := by
        rw [List.find?_eq_none]
        intro x hx
        simp only [beq_iff_eq]
        have := hseq x hx
        omega
      rw [h1]
      simp [List.find?]
    simp only [postTransaction, hr, Bool.false_eq_true, if_false]
    rw [hfind]

/-- Witness for C7: a rejected body with an empty reference, and an
accepted body inserted into an empty store. -/
theorem claim_C7_create_witness :
    (∀ x ∈ ([] : List Txn), x.id ≤ 0) ∧
    postTransaction ⟨[], 0⟩ ⟨"2024-02-02", "", "invoice", "a", none, none⟩ =
      (.badRequest, ⟨[], 0⟩) ∧
    postTransaction ⟨[], 0⟩ ⟨"2024-02-02", "x", "invoice", "a", none, some 7⟩ =
      (.ok (some ⟨1, "2024-02-02", "x", "invoice", "a", 0, 7⟩),
       ⟨[⟨1, "2024-02-02", "x", "invoice", "a", 0, 7⟩], 1⟩) := by
  refine ⟨by decide, ?_, ?_⟩
  · exact (claim_C7_create ⟨[], 0⟩ _ (by decide)).1 (by decide)
  · exact (claim_C7_create ⟨[], 0⟩ _ (by decide)).2 (by decide)

/-! ## Claim C8 — update/delete of a nonexistent id -/

/-- C8: deleting a nonexistent transaction id reports success with zero
changes and leaves the store unchanged, and updating a nonexistent id
(with all required fields supplied) reports success with zero changes and
an absent row, leaving the store unchanged — neither is an error. -/
theorem claim_C8_missing_id (st : TxStore) (id : Nat) (b : TxBody)
    (hid : ∀ x ∈ st.rows, x.id ≠ id)
    (hreq : requiredMissing b = false) :
    deleteTransaction st id = (0, st) ∧
    updateTransaction st id b = (.ok 0 none, st) := by
  have hfilter0 : st.rows.filter (fun t => t.id == id) = [] := by
    rw [List.filter_eq_nil_iff]
    intro x hx
    simp only [beq_iff_eq]
    exact hid x hx
  have hfind : st.rows.find? (fun t => t.id == id) = none := by
    rw [List.find?_eq_none]
    intro x hx
    simp only [beq_iff_eq]
    exact hid x hx
  constructor
  · unfold deleteTransaction
    rw [hfilter0]
    have hkeep : st.rows.filter (fun t => !(t.id == id)) = st.rows := by
      rw [List.filter_eq_self]
      intro x hx
      simp only [Bool.not_eq_true', beq_eq_false_iff_ne]
      exact hid x hx
    rw [hkeep]
    rfl
  · unfold updateTransaction
    simp only [hreq, Bool.false_eq_true, if_false]
    have hmap : st.rows.map (fun t =>
        if t.id == id then
          { t with date := b.date, reference := b.reference, type := b.type,
                   account := b.account, debit := b.debit.getD 0,
                   credit := b.credit.getD 0 }
        else t) = st.rows := by
      have h1 := List.map_congr_left (l := st.rows)
        (f := fun t =>
          if t.id == id then
            { t with date := b.date, reference := b.reference, type := b.type,
                     account := b.account, debit := b.debit.getD 0,
                     credit := b.credit.getD 0 }
          else t)
        (g := fun t => t)
        (fun x hx => by
          simp [beq_eq_false_iff_ne.mpr (hid x hx)])
      rw [h1, List.map_id']
    rw [hmap, hfilter0]
    unfold getById
    rw [hfind]
    rfl

/-- Witness for C8: a store holding id 1, targeted at id 2 with a valid
body. -/
theorem claim_C8_missing_id_witness :
    ((∀ x ∈ ([⟨1, "2024-01-05", "r", "invoice", "acc", 0, 0⟩] : List Txn),
        x.id ≠ 2) ∧
      requiredMissing ⟨"2024-02-02", "x", "invoice", "a", none, none⟩ = false) ∧
    deleteTransaction ⟨[⟨1, "2024-01-05", "r", "invoice", "acc", 0, 0⟩], 1⟩ 2 =
      (0, ⟨[⟨1, "2024-01-05", "r", "invoice", "acc", 0, 0⟩], 1⟩) ∧
    updateTransaction ⟨[⟨1, "2024-01-05", "r", "invoice", "acc", 0, 0⟩], 1⟩ 2
        ⟨"2024-02-02", "x", "invoice", "a", none, none⟩ =
      (.ok 0 none, ⟨[⟨1, "2024-01-05", "r", "invoice", "acc", 0, 0⟩], 1⟩) := by
  have h := claim_C8_missing_id
    ⟨[⟨1, "2024-01-05", "r", "invoice", "acc", 0, 0⟩], 1⟩ 2
    ⟨"2024-02-02", "x", "invoice", "a", none, none⟩ (by decide) (by decide)
  exact ⟨⟨by decide, by decide⟩, h.1, h.2⟩

/-! ## Claim C6 — CSV export (corrected: six-column header) -/

theorem escQuotes_append_quote (s u : String) :
    escQuotes (s ++ "\"" ++ u) = escQuotes s ++ "\"\"" ++ escQuotes u := by
  apply String.ext
  show ((s ++ "\"" ++ u).data.flatMap _) =
    (escQuotes s).data ++ ("\"\"" : String).data ++ (escQuotes u).data
  rw [String.data_append, String.data_append, List.flatMap_append,
    List.flatMap_append]
  rfl

/-- C6 counterexample: the export's fixed header has six comma-separated
columns, not five as claimed. -/
theorem claim_C6_counterexample :
    apiExportCsv [] = "Date,Reference,Type,Account,Debit,Credit\n" ∧
    (splitOnCh ',' ("Date,Reference,Type,Account,Debit,Credit").data).length = 6 ∧
    (splitOnCh ',' ("Date,Reference,Type,Account,Debit,Credit").data).length ≠ 5 := by
  refine ⟨?_, by decide, by decide⟩
  decide

/-- C6 (amended): the CSV export emits all transactions ordered by date
descending, preceded by a fixed six-column header line, one quoted-field
line per transaction carrying date, reference, type, account, debit,
credit, where every double quote embedded in reference or account is
doubled. -/
theorem claim_C6_export (txns : List Txn) :
    ∃ L : List Txn,
      apiExportCsv txns =
        csvHeader ++ String.join (L.map (fun t => csvLine t ++ "\n")) ∧
      L.Perm txns ∧ L.Pairwise dateDescOrd ∧
      (splitOnCh ',' csvHeader.data).length = 6 ∧
      (∀ s u : String,
        escQuotes (s ++ "\"" ++ u) = escQuotes s ++ "\"\"" ++ escQuotes u) := by
  refine ⟨List.insertionSort dateDescOrd txns, rfl,
    List.perm_insertionSort _ _, ?_, by decide, escQuotes_append_quote⟩
  haveI : IsTotal Txn dateDescOrd := ⟨dateDescOrd_total⟩
  haveI : IsTrans Txn dateDescOrd := ⟨dateDescOrd_trans⟩
  exact List.sorted_insertionSort dateDescOrd txns

end Finemate
